import Mathlib

/-!
Verification of the contact-management core in `src/script.ts` (and its
compiled twin): the `Contact` class and the `ContactManager` store.

The embedding is shallow and executable:
* JS strings are Lean `String`s; `toLowerCase`/`toUpperCase`/`charAt(0)`/
  `includes`/`trim` are modelled character-wise below.
* The JS `a || b` fallback on strings (and on possibly-`undefined` string
  properties, modelled as `Option String`) is `jsStrFallback` / `jsStrOr`.
* `Date.now() + Math.random()` (fresh id) and `new Date()` (creation time)
  are nondeterministic inputs of the environment, so the operations that
  construct contacts take them as explicit `Nat` parameters.
* `localStorage` is one optional slot in the store state; `JSON.stringify`
  followed by `JSON.parse` on the serialised contact array is faithful for
  the number, string and ISO-date fields involved, so the storage snapshot
  is a `List StoredContact` and serialisation is field-wise.
* In-place mutation (`find` + `contact.update(data)`, `splice(index, 1)`)
  becomes pure list surgery on the first record matching the id, exactly as
  the aliasing in the source has it.
-/

/-- value of the JS expression `a || b` where both sides are strings:
`a` unless `a` is falsy, i.e. the empty string. -/
def jsStrFallback (a b : String) : String :=
  if a = "" then b else a

/-- value of the JS expression `a || b` where `a` is a possibly-`undefined`
string property (an optional field, modelled as `Option String`) and `b` a
string: `b` when `a` is `undefined` or the empty string, else the value. -/
def jsStrOr : Option String → String → String
  | none, b => b
  | some a, b => if a = "" then b else a

/-- model of JS `String.prototype.trim`: the string with its leading and
trailing whitespace removed. -/
def jsTrim (s : String) : String :=
  String.mk
    (((s.toList.dropWhile Char.isWhitespace).reverse.dropWhile Char.isWhitespace).reverse)

/-- model of JS `String.prototype.toLowerCase`, character-wise. -/
def jsToLower (s : String) : String :=
  String.mk (s.toList.map Char.toLower)

/-- model of JS `String.prototype.toUpperCase`, character-wise. -/
def jsToUpper (s : String) : String :=
  String.mk (s.toList.map Char.toUpper)

/-- model of JS `s.charAt(0)`: the one-character string holding the first
character, or the empty string when `s` is empty. -/
def charAt0 (s : String) : String :=
  match s.toList with
  | [] => ""
  | ch :: _ => String.mk [ch]

/-- whether `needle` is an initial segment of `hay` (character lists). -/
def listStartsWith : List Char → List Char → Bool
  | _, [] => true
  | [], _ :: _ => false
  | a :: as, b :: bs => a == b && listStartsWith as bs

/-- whether `needle` occurs as a contiguous run inside `hay`. -/
def listContainsSub : List Char → List Char → Bool
  | [], needle => listStartsWith [] needle
  | a :: t, needle => listStartsWith (a :: t) needle || listContainsSub t needle

/-- model of JS `s.includes(sub)`: substring occurrence. -/
def jsIncludes (s sub : String) : Bool :=
  listContainsSub s.toList sub.toList

/-- the `Contact` record of `script.ts`: six string fields plus the identity
pair `id` (a JS number, here `Nat`) and `createdAt` (a date, here its
timestamp as `Nat`). -/
structure Contact where
  id : Nat
  firstName : String
  lastName : String
  userName : String
  phone : String
  email : String
  address : String
  createdAt : Nat
deriving Repr, DecidableEq

/-- the `Contact` constructor, with the environment-supplied fresh id
(`Date.now() + Math.random()`) and creation time (`new Date()`) made
explicit parameters. -/
def Contact.make (freshId now : Nat)
    (firstName lastName userName phone email address : String) : Contact :=
  { id := freshId, firstName := firstName, lastName := lastName,
    userName := userName, phone := phone, email := email, address := address,
    createdAt := now }

/-- `Partial<ContactFormData>`: the update payload, each field possibly
absent. -/
structure ContactUpdate where
  firstName : Option String := none
  lastName : Option String := none
  userName : Option String := none
  phone : Option String := none
  email : Option String := none
  address : Option String := none
deriving Repr, DecidableEq

/-- `ContactFormData`: the validated form payload of an add; `email` and
`address` are the optional fields of the interface. -/
structure ContactFormData where
  firstName : String
  lastName : String
  userName : String
  phone : String
  email : Option String := none
  address : Option String := none
deriving Repr, DecidableEq

/-- `Contact.prototype.getFullName`. -/
def Contact.getFullName (c : Contact) : String :=
  c.firstName ++ " " ++ c.lastName

/-- `Contact.prototype.getInitials`:
`(firstName.charAt(0) + lastName.charAt(0)).toUpperCase()`. -/
def Contact.getInitials (c : Contact) : String :=
  jsToUpper (charAt0 c.firstName ++ charAt0 c.lastName)

/-- `Contact.prototype.update`: each of the six fields is
`data.field || this.field`. -/
def Contact.update (c : Contact) (data : ContactUpdate) : Contact :=
  { c with
    firstName := jsStrOr data.firstName c.firstName,
    lastName := jsStrOr data.lastName c.lastName,
    userName := jsStrOr data.userName c.userName,
    phone := jsStrOr data.phone c.phone,
    email := jsStrOr data.email c.email,
    address := jsStrOr data.address c.address }

/-- one entry of the JSON array `JSON.stringify(this.contacts)` writes to
the `localStorage` slot: the eight own fields of a contact, the date as the
timestamp its ISO serialisation denotes (number and string round-trips
through JSON are exact). -/
structure StoredContact where
  id : Nat
  firstName : String
  lastName : String
  userName : String
  phone : String
  email : String
  address : String
  createdAt : Nat
deriving Repr, DecidableEq

/-- serialisation of one contact into the stored snapshot. -/
def serializeContact (c : Contact) : StoredContact :=
  { id := c.id, firstName := c.firstName, lastName := c.lastName,
    userName := c.userName, phone := c.phone, email := c.email,
    address := c.address, createdAt := c.createdAt }

/-- the per-entry body of `loadContacts`: `new Contact(data.firstName,
data.lastName, data.userName || '', data.phone, data.email, data.address)`
followed by `contact.id = data.id; contact.createdAt = new Date(data.createdAt)`.
The constructor-assigned id and time are immediately overwritten, so they are
passed as zero here. -/
def loadStoredContact (data : StoredContact) : Contact :=
  { Contact.make 0 0 data.firstName data.lastName
      (jsStrFallback data.userName "") data.phone data.email data.address with
    id := data.id, createdAt := data.createdAt }

/-- state of a `ContactManager` together with its `localStorage` slot
(`none` models a missing `'contacts'` key). -/
structure ManagerState where
  contacts : List Contact
  filteredContacts : List Contact
  currentEditId : Option Nat
  storage : Option (List StoredContact)
deriving Repr, DecidableEq

/-- a fresh manager over an empty `localStorage`: the field initialisers of
the class. -/
def initialState : ManagerState :=
  { contacts := [], filteredContacts := [], currentEditId := none, storage := none }

/-- model of JS `Array.prototype.find`: the first element satisfying the
predicate. -/
def jsFind (p : Contact → Bool) : List Contact → Option Contact
  | [] => none
  | c :: rest => if p c then some c else jsFind p rest

/-- model of JS `Array.prototype.findIndex`, as an `Option` (`none` for the
sentinel `-1`). -/
def jsFindIndex (p : Contact → Bool) : List Contact → Option Nat
  | [] => none
  | c :: rest => if p c then some 0 else (jsFindIndex p rest).map (fun i => i + 1)

/-- model of `splice(index, 1)`: removal of the element at the index. -/
def jsSpliceOne : List Contact → Nat → List Contact
  | [], _ => []
  | _ :: rest, 0 => rest
  | c :: rest, n + 1 => c :: jsSpliceOne rest n

/-- effect on the contacts array of `this.contacts.find(c => c.id === id)`
followed by an in-place `contact.update(data)`: the first record with the
id is replaced by its update. -/
def updateFirst (id : Nat) (data : ContactUpdate) : List Contact → List Contact
  | [] => []
  | c :: rest =>
      if c.id = id then c.update data :: rest else c :: updateFirst id data rest

/-- `saveToStorage`: `localStorage.setItem('contacts', JSON.stringify(this.contacts))`. -/
def saveToStorage (st : ManagerState) : ManagerState :=
  { st with storage := some (st.contacts.map serializeContact) }

/-- `addContact`: build the contact (optional form fields defaulted by
`|| ''`), push it, resync `filteredContacts` as a copy, persist, return it. -/
def addContact (st : ManagerState) (freshId now : Nat)
    (contactData : ContactFormData) : ManagerState × Contact :=
  let contact := Contact.make freshId now contactData.firstName
    contactData.lastName contactData.userName contactData.phone
    (jsStrOr contactData.email "") (jsStrOr contactData.address "")
  let st2 := saveToStorage
    { st with contacts := st.contacts ++ [contact],
              filteredContacts := st.contacts ++ [contact] }
  (st2, contact)

/-- `updateContact`: find by id; if found, update in place, resync
`filteredContacts`, persist, return the record; else return `null` and do
nothing. -/
def updateContact (st : ManagerState) (id : Nat)
    (contactData : ContactUpdate) : ManagerState × Option Contact :=
  match jsFind (fun c => c.id == id) st.contacts with
  | some contact =>
      let contacts2 := updateFirst id contactData st.contacts
      (saveToStorage { st with contacts := contacts2, filteredContacts := contacts2 },
       some (contact.update contactData))
  | none => (st, none)

/-- `deleteContact`: find the index by id; if found, `splice(index, 1)`,
resync `filteredContacts`, persist, return `true`; else return `false`. -/
def deleteContact (st : ManagerState) (id : Nat) : ManagerState × Bool :=
  match jsFindIndex (fun c => c.id == id) st.contacts with
  | some index =>
      let contacts2 := jsSpliceOne st.contacts index
      (saveToStorage { st with contacts := contacts2, filteredContacts := contacts2 },
       true)
  | none => (st, false)

/-- the per-record match of `searchContacts` against the lowercased query
`searchTerm`, exactly as the source's boolean: three lowercased name fields,
the phone literally, and the email behind its truthiness guard. -/
def searchMatches (contact : Contact) (searchTerm : String) : Bool :=
  jsIncludes (jsToLower contact.firstName) searchTerm ||
  jsIncludes (jsToLower contact.lastName) searchTerm ||
  jsIncludes (jsToLower contact.userName) searchTerm ||
  jsIncludes contact.phone searchTerm ||
  (contact.email != "" && jsIncludes (jsToLower contact.email) searchTerm)

/-- `searchContacts`: on a blank query (`!query.trim()`) the filtered view
is a copy of `contacts`; otherwise it is the filter by `searchMatches`
against `query.toLowerCase()`. Nothing else changes. -/
def searchContacts (st : ManagerState) (query : String) : ManagerState :=
  if jsTrim query = "" then
    { st with filteredContacts := st.contacts }
  else
    { st with filteredContacts :=
        st.contacts.filter (fun c => searchMatches c (jsToLower query)) }

/-- `loadContacts`: when the slot holds a snapshot, rebuild `contacts` from
it entry-wise; in either case `filteredContacts` becomes a copy of
`contacts`. -/
def loadContacts (st : ManagerState) : ManagerState :=
  match st.storage with
  | some contactsData =>
      let contacts2 := contactsData.map loadStoredContact
      { st with contacts := contacts2, filteredContacts := contacts2 }
  | none => { st with filteredContacts := st.contacts }

/-- size of the full collection, as `updateStats` displays it
(`this.contacts.length`) and as the spec's `getCount()` exposes it. -/
def getCount (st : ManagerState) : Nat :=
  st.contacts.length

/-- the contact an `addContact` call with the given fresh id, time and form
data constructs. -/
def addedContact : Nat × Nat × ContactFormData → Contact
  | (freshId, now, d) =>
      Contact.make freshId now d.firstName d.lastName d.userName d.phone
        (jsStrOr d.email "") (jsStrOr d.address "")

/-- a sequence of `addContact` calls, each with its environment-supplied
fresh id and time. -/
def runAdds (st : ManagerState) : List (Nat × Nat × ContactFormData) → ManagerState
  | [] => st
  | (freshId, now, d) :: rest => runAdds (addContact st freshId now d).1 rest

/-! ## Concrete fixtures for scenario conjuncts and witnesses -/

/-- the spec's scenario record: Jane Doe, with id 1 and creation time 0. -/
def janeContact : Contact :=
  { id := 1, firstName := "Jane", lastName := "Doe", userName := "jdoe",
    phone := "555-1234", email := "", address := "", createdAt := 0 }

/-- a one-record store holding Jane, with an empty storage slot. -/
def janeState : ManagerState :=
  { contacts := [janeContact], filteredContacts := [janeContact],
    currentEditId := none, storage := none }

/-! ## Helper lemmas about the JS primitives -/

theorem jsStrOr_of_ne (a b : String) (h : a ≠ "") : jsStrOr (some a) b = a := by
  simp [jsStrOr, h]

theorem jsStrOr_keep (v : Option String) (b : String)
    (h : v = none ∨ v = some "") : jsStrOr v b = b := by
  rcases h with h | h <;> subst h <;> simp [jsStrOr]

theorem jsStrOr_empty_getD (v : Option String) : jsStrOr v "" = v.getD "" := by
  cases v with
  | none => rfl
  | some a =>
      by_cases h : a = ""
      · subst h; simp [jsStrOr]
      · simp [jsStrOr, h]

theorem jsFind_eq_none_of (p : Contact → Bool) (l : List Contact)
    (h : ∀ c ∈ l, p c = false) : jsFind p l = none := by
  induction l with
  | nil => rfl
  | cons a rest ih =>
      have ha : p a = false := h a (List.mem_cons_self a rest)
      have hr : jsFind p rest = none :=
        ih fun c hc => h c (List.mem_cons_of_mem a hc)
      simp [jsFind, ha, hr]

theorem jsFindIndex_eq_none_of (p : Contact → Bool) (l : List Contact)
    (h : ∀ c ∈ l, p c = false) : jsFindIndex p l = none := by
  induction l with
  | nil => rfl
  | cons a rest ih =>
      have ha : p a = false := h a (List.mem_cons_self a rest)
      have hr : jsFindIndex p rest = none :=
        ih fun c hc => h c (List.mem_cons_of_mem a hc)
      simp [jsFindIndex, ha, hr]

theorem mk_append_mk (la lb : List Char) :
    String.mk la ++ String.mk lb = String.mk (la ++ lb) := rfl

theorem empty_append_str (s : String) : "" ++ s = s := by
  cases s with
  | mk l => rfl

theorem str_append_empty (s : String) : s ++ "" = s := by
  cases s with
  | mk l =>
      show String.mk (l ++ []) = String.mk l
      rw [List.append_nil]

theorem jsToUpper_append (a b : String) :
    jsToUpper (a ++ b) = jsToUpper a ++ jsToUpper b := by
  cases a with
  | mk la =>
      cases b with
      | mk lb =>
          show String.mk ((la ++ lb).map Char.toUpper) = _
          rw [List.map_append, ← mk_append_mk]
          rfl

/-! ## Claim theorems -/

/-- C1: the record-level update is merge-by-truthiness: an incoming value
replaces each of the six fields exactly when it is a present non-empty
string, and an absent value or an explicit empty string leaves the field
unchanged; in particular the scenario update on Jane with firstName "" and
lastName "Doer" keeps firstName "Jane" and sets lastName "Doer". -/
theorem update_merge_by_truthiness (c : Contact) (d : ContactUpdate) :
    ((∀ s, s ≠ "" → d.firstName = some s → (c.update d).firstName = s) ∧
      ((d.firstName = none ∨ d.firstName = some "") →
        (c.update d).firstName = c.firstName)) ∧
    ((∀ s, s ≠ "" → d.lastName = some s → (c.update d).lastName = s) ∧
      ((d.lastName = none ∨ d.lastName = some "") →
        (c.update d).lastName = c.lastName)) ∧
    ((∀ s, s ≠ "" → d.userName = some s → (c.update d).userName = s) ∧
      ((d.userName = none ∨ d.userName = some "") →
        (c.update d).userName = c.userName)) ∧
    ((∀ s, s ≠ "" → d.phone = some s → (c.update d).phone = s) ∧
      ((d.phone = none ∨ d.phone = some "") → (c.update d).phone = c.phone)) ∧
    ((∀ s, s ≠ "" → d.email = some s → (c.update d).email = s) ∧
      ((d.email = none ∨ d.email = some "") → (c.update d).email = c.email)) ∧
    ((∀ s, s ≠ "" → d.address = some s → (c.update d).address = s) ∧
      ((d.address = none ∨ d.address = some "") →
        (c.update d).address = c.address)) ∧
    ((updateContact janeState 1
        { firstName := some "", lastName := some "Doer" }).1.contacts.map
      (fun x => (x.firstName, x.lastName))) = [("Jane", "Doer")] := by
  refine ⟨⟨?_, ?_⟩, ⟨?_, ?_⟩, ⟨?_, ?_⟩, ⟨?_, ?_⟩, ⟨?_, ?_⟩, ⟨?_, ?_⟩, ?_⟩
  case _ => intro s hs hd; rw [show (c.update d).firstName = jsStrOr d.firstName c.firstName from rfl, hd]; exact jsStrOr_of_ne s _ hs
  case _ => intro h; exact jsStrOr_keep d.firstName c.firstName h
  case _ => intro s hs hd; rw [show (c.update d).lastName = jsStrOr d.lastName c.lastName from rfl, hd]; exact jsStrOr_of_ne s _ hs
  case _ => intro h; exact jsStrOr_keep d.lastName c.lastName h
  case _ => intro s hs hd; rw [show (c.update d).userName = jsStrOr d.userName c.userName from rfl, hd]; exact jsStrOr_of_ne s _ hs
  case _ => intro h; exact jsStrOr_keep d.userName c.userName h
  case _ => intro s hs hd; rw [show (c.update d).phone = jsStrOr d.phone c.phone from rfl, hd]; exact jsStrOr_of_ne s _ hs
  case _ => intro h; exact jsStrOr_keep d.phone c.phone h
  case _ => intro s hs hd; rw [show (c.update d).email = jsStrOr d.email c.email from rfl, hd]; exact jsStrOr_of_ne s _ hs
  case _ => intro h; exact jsStrOr_keep d.email c.email h
  case _ => intro s hs hd; rw [show (c.update d).address = jsStrOr d.address c.address from rfl, hd]; exact jsStrOr_of_ne s _ hs
  case _ => intro h; exact jsStrOr_keep d.address c.address h
  case _ => decide

/-- C3: an update or a delete aimed at an id no record carries returns the
not-found result (`none` and `false` respectively) and leaves the whole
store state, filtered view and storage slot included, exactly as it was. -/
theorem notFound_noop (st : ManagerState) (id : Nat) (d : ContactUpdate)
    (h : ∀ c ∈ st.contacts, c.id ≠ id) :
    updateContact st id d = (st, none) ∧ deleteContact st id = (st, false) := by
  have hfalse : ∀ c ∈ st.contacts, (fun c : Contact => c.id == id) c = false := by
    intro c hc
    simp only [beq_eq_false_iff_ne, ne_eq]
    exact h c hc
  constructor
  · simp [updateContact, jsFind_eq_none_of _ _ hfalse]
  · simp [deleteContact, jsFindIndex_eq_none_of _ _ hfalse]

/-- witness for C3: on the one-record Jane store, id 2 matches nothing, the
update returns `none`, the delete returns `false`, and the state is
untouched. -/
theorem notFound_noop_witness :
    updateContact janeState 2 { firstName := some "Ada" } = (janeState, none) ∧
    deleteContact janeState 2 = (janeState, false) :=
  notFound_noop janeState 2 { firstName := some "Ada" } (by decide)

/-- C9: getInitials is the uppercased first character of firstName followed
by the uppercased first character of lastName, and is total: an empty name
contributes no character instead of failing; on Jane Doe it yields "JD". -/
theorem getInitials_spec (c : Contact) :
    c.getInitials = jsToUpper (charAt0 c.firstName) ++ jsToUpper (charAt0 c.lastName) ∧
    (c.firstName = "" → c.getInitials = jsToUpper (charAt0 c.lastName)) ∧
    (c.lastName = "" → c.getInitials = jsToUpper (charAt0 c.firstName)) ∧
    (c.firstName = "" → c.lastName = "" → c.getInitials = "") ∧
    (c.firstName = "Jane" → c.lastName = "Doe" → c.getInitials = "JD") := by
  obtain ⟨i, f, l, u, p, e, ad, t⟩ := c
  refine ⟨jsToUpper_append _ _, ?_, ?_, ?_, ?_⟩
  · intro h
    subst h
    show jsToUpper (charAt0 "" ++ charAt0 l) = _
    rw [show charAt0 "" = "" from rfl, empty_append_str]
  · intro h
    subst h
    show jsToUpper (charAt0 f ++ charAt0 "") = _
    rw [show charAt0 "" = "" from rfl, str_append_empty]
  · intro h1 h2
    subst h1; subst h2
    rfl
  · intro h1 h2
    subst h1; subst h2
    rfl

theorem loadStoredContact_serializeContact (c : Contact) :
    loadStoredContact (serializeContact c) = c := by
  obtain ⟨i, f, l, u, p, e, ad, t⟩ := c
  show Contact.mk i f l (jsStrFallback u "") p e ad t = Contact.mk i f l u p e ad t
  by_cases h : u = ""
  · subst h; rfl
  · simp [jsStrFallback, h]

/-- C5: persisting the full contacts sequence and loading it back
reconstructs the same records in the same order (`id`, `createdAt` and all
six string fields included), and a loaded record always takes its `id` and
`createdAt` from the stored snapshot rather than from fresh generation. -/
theorem persistence_roundtrip (st : ManagerState) :
    (loadContacts (saveToStorage st)).contacts = st.contacts ∧
    (loadContacts (saveToStorage st)).contacts.length = st.contacts.length ∧
    (loadContacts (saveToStorage st)).filteredContacts = st.contacts ∧
    (∀ d : StoredContact, (loadStoredContact d).id = d.id ∧
      (loadStoredContact d).createdAt = d.createdAt) := by
  have key : (st.contacts.map serializeContact).map loadStoredContact = st.contacts := by
    rw [List.map_map]
    have : ∀ a ∈ st.contacts, (loadStoredContact ∘ serializeContact) a = id a := by
      intro a _
      show loadStoredContact (serializeContact a) = a
      exact loadStoredContact_serializeContact a
    rw [List.map_congr_left this, List.map_id]
  refine ⟨?_, ?_, ?_, fun d => ⟨rfl, rfl⟩⟩
  · show (st.contacts.map serializeContact).map loadStoredContact = st.contacts
    exact key
  · show ((st.contacts.map serializeContact).map loadStoredContact).length = _
    rw [key]
  · show (st.contacts.map serializeContact).map loadStoredContact = st.contacts
    exact key

theorem runAdds_contacts (st : ManagerState)
    (inputs : List (Nat × Nat × ContactFormData)) :
    (runAdds st inputs).contacts = st.contacts ++ inputs.map addedContact := by
  induction inputs generalizing st with
  | nil => simp [runAdds]
  | cons x rest ih =>
      obtain ⟨i, t, d⟩ := x
      show (runAdds (addContact st i t d).1 rest).contacts = _
      rw [ih]
      simp [addContact, saveToStorage, addedContact, Contact.make]

/-- C4: an add appends exactly the one record built from the form data to
the end of `contacts` (optional email and address defaulting to the empty
string), resets `filteredContacts` to a full copy of `contacts`, persists
the snapshot, and returns the new record; N adds from the empty store give
`contacts` length N and `getCount()` N. -/
theorem addContact_spec (st : ManagerState) (freshId now : Nat)
    (d : ContactFormData) (inputs : List (Nat × Nat × ContactFormData)) :
    (addContact st freshId now d).1.contacts
        = st.contacts ++ [(addContact st freshId now d).2] ∧
    (addContact st freshId now d).2.id = freshId ∧
    (addContact st freshId now d).2.createdAt = now ∧
    (addContact st freshId now d).2.firstName = d.firstName ∧
    (addContact st freshId now d).2.lastName = d.lastName ∧
    (addContact st freshId now d).2.userName = d.userName ∧
    (addContact st freshId now d).2.phone = d.phone ∧
    (addContact st freshId now d).2.email = d.email.getD "" ∧
    (addContact st freshId now d).2.address = d.address.getD "" ∧
    (addContact st freshId now d).1.filteredContacts
        = (addContact st freshId now d).1.contacts ∧
    (addContact st freshId now d).1.storage
        = some ((addContact st freshId now d).1.contacts.map serializeContact) ∧
    (runAdds initialState inputs).contacts.length = inputs.length ∧
    getCount (runAdds initialState inputs) = inputs.length := by
  have hlen : (runAdds initialState inputs).contacts.length = inputs.length := by
    rw [runAdds_contacts]
    simp [initialState]
  exact ⟨rfl, rfl, rfl, rfl, rfl, rfl, rfl, jsStrOr_empty_getD d.email,
    jsStrOr_empty_getD d.address, rfl, rfl, hlen, hlen⟩

/-- the claim's search predicate, written from the spec's words: the
lowercased query is a substring of the lowercased firstName, lastName,
userName or email, or a literal substring of the phone (which is not
lowercased) — an OR across the five fields, with no guard on the email. -/
def specSearchMatch (c : Contact) (q : String) : Bool :=
  jsIncludes (jsToLower c.firstName) (jsToLower q) ||
  jsIncludes (jsToLower c.lastName) (jsToLower q) ||
  jsIncludes (jsToLower c.userName) (jsToLower q) ||
  jsIncludes c.phone (jsToLower q) ||
  jsIncludes (jsToLower c.email) (jsToLower q)

theorem listContainsSub_nil_of_ne (needle : List Char) (h : needle ≠ []) :
    listContainsSub [] needle = false := by
  cases needle with
  | nil => exact absurd rfl h
  | cons b bs => rfl

theorem mk_eq_empty_iff (x : List Char) : String.mk x = "" ↔ x = [] := by
  constructor
  · intro h
    exact congrArg String.data h
  · intro h
    subst h
    rfl

theorem all_dropWhile_whitespace (l : List Char) :
    (l.dropWhile Char.isWhitespace).all Char.isWhitespace
      = l.all Char.isWhitespace := by
  induction l with
  | nil => rfl
  | cons a t ih =>
      cases ha : Char.isWhitespace a with
      | true => simp [List.dropWhile_cons, ha, ih]
      | false => simp [List.dropWhile_cons, ha]

theorem jsTrim_eq_empty_iff (s : String) :
    jsTrim s = "" ↔ s.toList.all Char.isWhitespace = true := by
  rw [jsTrim, mk_eq_empty_iff, List.reverse_eq_nil_iff, List.dropWhile_eq_nil_iff]
  constructor
  · intro h
    rw [← all_dropWhile_whitespace, List.all_eq_true]
    intro x hx
    exact h x (List.mem_reverse.mpr hx)
  · intro h x hx
    have h2 := (List.all_eq_true.mp ((all_dropWhile_whitespace s.toList).symm ▸ h))
    exact h2 x (List.mem_reverse.mp hx)

theorem searchMatches_eq_specSearchMatch (c : Contact) (q : String)
    (h : q.toList ≠ []) : searchMatches c (jsToLower q) = specSearchMatch c q := by
  have ht : (jsToLower q).toList ≠ [] := by
    show q.toList.map Char.toLower ≠ []
    simpa using h
  show _ = specSearchMatch c q
  unfold searchMatches specSearchMatch
  by_cases he : c.email = ""
  · rw [he]
    have hemail : jsIncludes (jsToLower "") (jsToLower q) = false := by
      rw [show jsToLower "" = "" from rfl]
      show listContainsSub [] (jsToLower q).toList = false
      exact listContainsSub_nil_of_ne _ ht
    simp [hemail]
  · have hbne : (c.email != "") = true := by simp [he]
    rw [hbne, Bool.true_and]

/-- C2: a search never changes `contacts`, the storage slot or the edit
session; an empty or whitespace-only query makes `filteredContacts` a full
copy of `contacts` in original order, and any other query filters
`contacts` (preserving relative order) by the OR of: lowercased query a
case-insensitive substring of firstName, lastName, userName or email, or a
literal substring of phone. -/
theorem searchContacts_spec (st : ManagerState) (q : String) :
    (searchContacts st q).contacts = st.contacts ∧
    (searchContacts st q).storage = st.storage ∧
    (searchContacts st q).currentEditId = st.currentEditId ∧
    (searchContacts st q).filteredContacts =
      (if q.toList.all Char.isWhitespace = true then st.contacts
       else st.contacts.filter (fun c => specSearchMatch c q)) := by
  by_cases h : jsTrim q = ""
  · have hw : q.toList.all Char.isWhitespace = true := (jsTrim_eq_empty_iff q).mp h
    rw [searchContacts, if_pos h, if_pos hw]
    exact ⟨rfl, rfl, rfl, rfl⟩
  · have hw : ¬ q.toList.all Char.isWhitespace = true :=
      fun hh => h ((jsTrim_eq_empty_iff q).mpr hh)
    have hq : q.toList ≠ [] := by
      intro hnil
      exact hw (by rw [hnil]; rfl)
    rw [searchContacts, if_neg h, if_neg hw]
    exact ⟨rfl, rfl, rfl,
      List.filter_congr fun c _ => searchMatches_eq_specSearchMatch c q hq⟩

theorem jsFind_some_decomp (p : Contact → Bool) (l : List Contact) (c : Contact)
    (h : jsFind p l = some c) :
    ∃ pre post, l = pre ++ c :: post ∧ p c = true ∧ ∀ x ∈ pre, p x = false := by
  induction l with
  | nil => cases h
  | cons a rest ih =>
      cases hpa : p a with
      | true =>
          simp [jsFind, hpa] at h
          subst h
          exact ⟨[], rest, rfl, hpa, by intro x hx; cases hx⟩
      | false =>
          simp [jsFind, hpa] at h
          obtain ⟨pre, post, h1, h2, h3⟩ := ih h
          refine ⟨a :: pre, post, by rw [h1]; rfl, h2, ?_⟩
          intro x hx
          rcases List.mem_cons.mp hx with rfl | hx2
          · exact hpa
          · exact h3 x hx2

theorem updateFirst_append (id : Nat) (d : ContactUpdate) (pre : List Contact)
    (c : Contact) (post : List Contact) (hpre : ∀ x ∈ pre, x.id ≠ id)
    (hc : c.id = id) :
    updateFirst id d (pre ++ c :: post) = pre ++ c.update d :: post := by
  induction pre with
  | nil => simp [updateFirst, hc]
  | cons a t ih =>
      have ha : a.id ≠ id := hpre a (List.mem_cons_self a t)
      show updateFirst id d (a :: (t ++ c :: post)) = _
      rw [updateFirst, if_neg ha, ih fun x hx => hpre x (List.mem_cons_of_mem a hx)]
      rfl

/-- C6: an update never changes any record's `id` or `createdAt`, and it
neither reorders nor adds nor removes records: the contacts list is
unchanged outside the one found record, which is replaced in place by its
merge-update. -/
theorem updateContact_frame (st : ManagerState) (id : Nat) (d : ContactUpdate) :
    (∀ c : Contact, (c.update d).id = c.id ∧ (c.update d).createdAt = c.createdAt) ∧
    (updateContact st id d).1.contacts.map (fun c => (c.id, c.createdAt))
        = st.contacts.map (fun c => (c.id, c.createdAt)) ∧
    (updateContact st id d).1.contacts.length = st.contacts.length ∧
    ((updateContact st id d).1.contacts = st.contacts ∨
      ∃ pre c post, st.contacts = pre ++ c :: post ∧ c.id = id ∧
        (∀ x ∈ pre, x.id ≠ id) ∧
        (updateContact st id d).1.contacts = pre ++ c.update d :: post) := by
  cases hf : jsFind (fun c => c.id == id) st.contacts with
  | none =>
      refine ⟨fun c => ⟨rfl, rfl⟩, ?_, ?_, Or.inl ?_⟩ <;> simp [updateContact, hf]
  | some c0 =>
      obtain ⟨pre, post, h1, h2, h3⟩ := jsFind_some_decomp _ _ _ hf
      have hc : c0.id = id := by simpa using h2
      have hpre : ∀ x ∈ pre, x.id ≠ id := by
        intro x hx
        simpa using h3 x hx
      have hcontacts : (updateContact st id d).1.contacts
          = pre ++ c0.update d :: post := by
        simp only [updateContact, hf, saveToStorage]
        show updateFirst id d st.contacts = _
        rw [h1]
        exact updateFirst_append id d pre c0 post hpre hc
      refine ⟨fun c => ⟨rfl, rfl⟩, ?_, ?_,
        Or.inr ⟨pre, c0, post, h1, hc, hpre, hcontacts⟩⟩
      · rw [hcontacts, h1]
        simp [Contact.update]
      · rw [hcontacts, h1]
        simp

theorem jsFindIndex_some_decomp (p : Contact → Bool) (l : List Contact) (i : Nat)
    (h : jsFindIndex p l = some i) :
    ∃ pre c post, l = pre ++ c :: post ∧ pre.length = i ∧ p c = true ∧
      (∀ x ∈ pre, p x = false) ∧ jsSpliceOne l i = pre ++ post := by
  induction l generalizing i with
  | nil => cases h
  | cons a rest ih =>
      cases hpa : p a with
      | true =>
          simp [jsFindIndex, hpa] at h
          subst h
          exact ⟨[], a, rest, rfl, rfl, hpa, (by intro x hx; cases hx), rfl⟩
      | false =>
          simp [jsFindIndex, hpa] at h
          obtain ⟨j, hj, hji⟩ := h
          obtain ⟨pre, c, post, h1, h2, h3, h4, h5⟩ := ih j hj
          subst hji
          refine ⟨a :: pre, c, post,
            (by rw [h1]; exact (List.cons_append a pre (c :: post)).symm),
            by simp [h2], h3, ?_, ?_⟩
          · intro x hx
            rcases List.mem_cons.mp hx with rfl | hx2
            · exact hpa
            · exact h4 x hx2
          · show jsSpliceOne (a :: rest) (j + 1) = _
            rw [jsSpliceOne, h5]
            rfl

theorem jsFindIndex_isSome_of (p : Contact → Bool) (l : List Contact)
    (h : ∃ c ∈ l, p c = true) : ∃ i, jsFindIndex p l = some i := by
  induction l with
  | nil =>
      obtain ⟨c, hc, _⟩ := h
      cases hc
  | cons a rest ih =>
      cases hpa : p a with
      | true => exact ⟨0, by simp [jsFindIndex, hpa]⟩
      | false =>
          obtain ⟨c, hc, hpc⟩ := h
          rcases List.mem_cons.mp hc with rfl | hc2
          · rw [hpa] at hpc; cases hpc
          · obtain ⟨j, hj⟩ := ih ⟨c, hc2, hpc⟩
            exact ⟨j + 1, by simp [jsFindIndex, hpa, hj]⟩

/-- C8: deleting an id some record carries removes exactly the (first such)
record, keeps the remaining records in their relative order, persists the
new snapshot and returns `true`; deleting the only record empties the store
and `getCount()` becomes 0. -/
theorem deleteContact_found (st : ManagerState) (id : Nat)
    (h : ∃ c ∈ st.contacts, c.id = id) :
    (deleteContact st id).2 = true ∧
    (∃ pre c post, st.contacts = pre ++ c :: post ∧ c.id = id ∧
      (∀ x ∈ pre, x.id ≠ id) ∧ (deleteContact st id).1.contacts = pre ++ post) ∧
    (deleteContact st id).1.contacts.length + 1 = st.contacts.length ∧
    (deleteContact st id).1.storage
        = some ((deleteContact st id).1.contacts.map serializeContact) ∧
    (st.contacts.length = 1 → (deleteContact st id).1.contacts = []
        ∧ getCount (deleteContact st id).1 = 0) := by
  have hb : ∃ c ∈ st.contacts, (fun c : Contact => c.id == id) c = true := by
    obtain ⟨c, hc, he⟩ := h
    exact ⟨c, hc, by simpa using he⟩
  obtain ⟨i, hi⟩ := jsFindIndex_isSome_of _ _ hb
  obtain ⟨pre, c0, post, h1, h2, h3, h4, h5⟩ := jsFindIndex_some_decomp _ _ _ hi
  have hcontacts : (deleteContact st id).1.contacts = pre ++ post := by
    simp only [deleteContact, hi, saveToStorage]
    exact h5
  have hret : (deleteContact st id).2 = true := by
    simp [deleteContact, hi]
  have hstore : (deleteContact st id).1.storage
      = some ((deleteContact st id).1.contacts.map serializeContact) := by
    simp [deleteContact, hi, saveToStorage]
  have hlen : (deleteContact st id).1.contacts.length + 1 = st.contacts.length := by
    rw [hcontacts, h1]
    simp
    omega
  refine ⟨hret, ⟨pre, c0, post, h1, by simpa using h3, ?_, hcontacts⟩, hlen, hstore, ?_⟩
  · intro x hx
    simpa using h4 x hx
  · intro hone
    have hp : pre = [] ∧ post = [] := by
      rw [h1] at hone
      simp at hone
      constructor
      · exact List.length_eq_zero.mp (by omega)
      · exact List.length_eq_zero.mp (by omega)
    rw [hcontacts, hp.1, hp.2]
    exact ⟨rfl, by show ((deleteContact st id).1.contacts).length = 0; rw [hcontacts, hp.1, hp.2]; rfl⟩

/-- C10: a successful delete also resets `filteredContacts` to a full copy
of the post-deletion contacts, clearing any active search filter — the same
filter-reset behaviour documented for add and update. -/
theorem deleteContact_resets_filter (st : ManagerState) (id : Nat)
    (h : ∃ c ∈ st.contacts, c.id = id) :
    (deleteContact st id).2 = true ∧
    (deleteContact st id).1.filteredContacts = (deleteContact st id).1.contacts := by
  have hb : ∃ c ∈ st.contacts, (fun c : Contact => c.id == id) c = true := by
    obtain ⟨c, hc, he⟩ := h
    exact ⟨c, hc, by simpa using he⟩
  obtain ⟨i, hi⟩ := jsFindIndex_isSome_of _ _ hb
  constructor
  · simp [deleteContact, hi]
  · simp [deleteContact, hi, saveToStorage]

/-- witness for C8: deleting id 1 from a two-record store removes Jane,
keeps Bob, and returns true. -/
theorem deleteContact_found_witness :
    (deleteContact janeState 1).2 = true ∧
    (∃ pre c post, janeState.contacts = pre ++ c :: post ∧ c.id = 1 ∧
      (∀ x ∈ pre, x.id ≠ 1) ∧ (deleteContact janeState 1).1.contacts = pre ++ post) ∧
    (deleteContact janeState 1).1.contacts.length + 1 = janeState.contacts.length ∧
    (deleteContact janeState 1).1.storage
        = some ((deleteContact janeState 1).1.contacts.map serializeContact) ∧
    (janeState.contacts.length = 1 → (deleteContact janeState 1).1.contacts = []
        ∧ getCount (deleteContact janeState 1).1 = 0) :=
  deleteContact_found janeState 1 ⟨janeContact, by decide, rfl⟩

/-- witness for C10: the successful delete of Jane leaves
`filteredContacts` equal to the post-deletion contacts. -/
theorem deleteContact_resets_filter_witness :
    (deleteContact janeState 1).2 = true ∧
    (deleteContact janeState 1).1.filteredContacts
        = (deleteContact janeState 1).1.contacts :=
  deleteContact_resets_filter janeState 1 ⟨janeContact, by decide, rfl⟩

/-- form data of the spec's Jane scenario. -/
def fdJane : ContactFormData :=
  { firstName := "Jane", lastName := "Doe", userName := "jdoe", phone := "555-1234" }

/-- form data of the spec's Bob Smith scenario. -/
def fdBob : ContactFormData :=
  { firstName := "Bob", lastName := "Smith", userName := "bsmith", phone := "555-9876" }

/-- counterexample to C7 as stated: nothing in the code forces two
`Date.now() + Math.random()` draws apart, so a run in which both adds draw
the value 5 is a reachable store state whose two records share an id, and
the second added record is no longer retrievable by a scan for its returned
id (the scan yields the first record instead). -/
theorem duplicate_id_counterexample :
    ((runAdds initialState [(5, 0, fdJane), (5, 1, fdBob)]).contacts.map Contact.id)
        = [5, 5] ∧
    ¬ ((runAdds initialState [(5, 0, fdJane), (5, 1, fdBob)]).contacts.map Contact.id).Nodup ∧
    jsFind (fun c => c.id == 5)
        (runAdds initialState [(5, 0, fdJane), (5, 1, fdBob)]).contacts
      ≠ some (addedContact (5, 1, fdBob)) := by
  refine ⟨by decide, by decide, by decide⟩

theorem jsFind_map_addedContact (inputs : List (Nat × Nat × ContactFormData))
    (x : Nat × Nat × ContactFormData) (hx : x ∈ inputs)
    (h : (inputs.map (fun y => y.1)).Nodup) :
    jsFind (fun c => c.id == x.1) (inputs.map addedContact) = some (addedContact x) := by
  induction inputs with
  | nil => cases hx
  | cons y ys ih =>
      have hid : (addedContact y).id = y.1 := by
        obtain ⟨i, t, d⟩ := y
        rfl
      rw [List.map_cons] at h
      obtain ⟨hnotin, hnd2⟩ := List.nodup_cons.mp h
      rcases List.mem_cons.mp hx with rfl | hx2
      · show jsFind _ (addedContact x :: _) = _
        rw [jsFind, if_pos (by rw [hid]; exact beq_self_eq_true x.1)]
      · have hne : ((addedContact y).id == x.1) = false := by
          rw [hid]
          refine beq_eq_false_iff_ne.mpr ?_
          intro he
          exact hnotin (he ▸ List.mem_map_of_mem (fun y => y.1) hx2)
        show jsFind _ (addedContact y :: _) = _
        rw [jsFind, if_neg (by rw [hne]; exact Bool.false_ne_true)]
        exact ih hx2 hnd2

/-- C7 (amended): provided the per-construction values of
`Date.now() + Math.random()` are pairwise distinct — the negligible-collision
regime the scheme is meant to give — every sequence of adds from the empty
store yields pairwise distinct ids, and each added record is retrievable by
a linear scan of `contacts` for its returned id. -/
theorem unique_ids_of_fresh (inputs : List (Nat × Nat × ContactFormData))
    (h : (inputs.map (fun x => x.1)).Nodup) :
    ((runAdds initialState inputs).contacts.map Contact.id).Nodup ∧
    ∀ x ∈ inputs,
      jsFind (fun c => c.id == x.1) (runAdds initialState inputs).contacts
        = some (addedContact x) := by
  have hc : (runAdds initialState inputs).contacts = inputs.map addedContact := by
    rw [runAdds_contacts]
    rfl
  constructor
  · rw [hc, List.map_map]
    have hcomp : (Contact.id ∘ addedContact) = fun x : Nat × Nat × ContactFormData => x.1 := by
      funext x
      obtain ⟨i, t, d⟩ := x
      rfl
    rw [hcomp]
    exact h
  · intro x hx
    rw [hc]
    exact jsFind_map_addedContact inputs x hx h

/-- witness for the amended C7: two adds with distinct draws 1 and 2 give
distinct ids and both records are retrievable by their ids. -/
theorem unique_ids_of_fresh_witness :
    ((runAdds initialState [(1, 0, fdJane), (2, 0, fdBob)]).contacts.map Contact.id).Nodup ∧
    ∀ x ∈ [(1, 0, fdJane), (2, 0, fdBob)],
      jsFind (fun c => c.id == x.1)
        (runAdds initialState [(1, 0, fdJane), (2, 0, fdBob)]).contacts
          = some (addedContact x) :=
  unique_ids_of_fresh [(1, 0, fdJane), (2, 0, fdBob)] (by decide)
